import Mathlib

/-!
Verification of the file-context caching and conversation-assembly subsystem
of `agent.py`.

The Python source is shallowly embedded: the filesystem is modelled as an
explicit directory listing (a list of `DirEnt`), Python strings as Lean
`String`s over their code-point lists, the module-level mutable globals
(`context`, `_last_sig`) as an explicit `AgentState` threaded through the
operations, and the external model call as a parameter of type
`Except String String` (error = the provider call raised).  Console prints
(`[info]`/`[warn]` diagnostics) are I/O without effect on the data and are
not modelled.
-/

/-! ## Python string primitives, modelled on code-point lists -/

/-- Python `s.startswith(pre)`: `pre` is a prefix of `s` as a sequence of
code points. -/
def pyStartswith (s pre : String) : Bool :=
  decide (pre.data <+: s.data)

/-- Python slicing `s[:n]`: the first `n` code points of `s`. -/
def pySlice (s : String) (n : Nat) : String :=
  ⟨s.data.take n⟩

/-- Python `str.join`: `pyJoin sep [a, b, c] = a ++ sep ++ b ++ sep ++ c`. -/
def pyJoin (sep : String) : List String → String
  | [] => ""
  | [x] => x
  | x :: y :: xs => x ++ sep ++ pyJoin sep (y :: xs)

/-- Python string comparison `s <= t` on code-point lists: lexicographic by
code point. -/
def pyLeChars : List Char → List Char → Bool
  | [], _ => true
  | _ :: _, [] => false
  | a :: as, b :: bs => if a = b then pyLeChars as bs else decide (a < b)

/-- Python string comparison `s <= t` (`sorted` compares same-directory
paths by their final component, i.e. the file name). -/
def pyStrLe (s t : String) : Bool :=
  pyLeChars s.data t.data

/-- Python `str.lower()`, applied code point by code point (the extension
strings compared with it are ASCII). -/
def pyLower (s : String) : String :=
  ⟨s.data.map Char.toLower⟩

/-- Python `pathlib.PurePath.suffix` of a file name: `"." ++` the part after
the last dot, provided that dot is neither the first nor the last character;
otherwise `""` (CPython: `i = name.rfind('.'); name[i:] if 0 < i < len(name)-1
else ''`). -/
def pySuffix (name : String) : String :=
  let cs := name.data
  match ((List.range cs.length).filter (fun i => cs.getD i ' ' = '.')).getLast? with
  | some i => if 0 < i ∧ i < cs.length - 1 then ⟨cs.drop i⟩ else ""
  | none => ""

/-! ## Data model -/

/-- One conversation element, Python dict `{"role": ..., "content": ...}`. -/
structure Entry where
  role : String
  content : String
deriving DecidableEq, Repr

/-- `os.stat_result` fields the code reads. -/
structure Stat where
  st_mtime_ns : Int
  st_size : Nat
deriving DecidableEq, Repr

/-- One entry of the directory listing (`base_dir.iterdir()` element):
its name, whether it is a regular file, the result of `read_text`
(`none` = the read raised), and the result of `stat` (`none` = `stat`
raised, e.g. the file disappeared between listing and stat). -/
structure DirEnt where
  name : String
  isFile : Bool
  content : Option String
  stat : Option Stat
deriving DecidableEq, Repr

/-- The module-level mutable globals: `context` and `_last_sig`
(initially `None`). -/
structure AgentState where
  context : List Entry
  lastSig : Option (List (String × Int × Nat))
deriving DecidableEq, Repr

/-! ## Config constants (agent.py lines 7-10) -/

def MAX_FILE_CHARS : Nat := 8000

def INCLUDE_EXTENSIONS : List String :=
  [".txt", ".md", ".py", ".json", ".yaml", ".yml", ".tf", ".tfvars"]

def FILE_CONTEXT_TAG : String := "__FILE_CONTEXT__"

/-- `Path(__file__).name`: the agent's own entry-point file name. -/
def agent_filename : String := "agent.py"

/-! ## Directory enumeration -/

/-- `sorted(base_dir.iterdir())`: Python sorts the paths of one directory
lexicographically by name (code-point order). Any correct sort realizes it;
insertion sort is used because it is stable, like Python's. -/
def sortByName (listing : List DirEnt) : List DirEnt :=
  listing.insertionSort (fun a b => pyStrLe a.name b.name = true)

/-- The eligibility tests of both `build_file_context_message` and
`directory_signature`: regular file, not the agent's own file by exact name,
extension (lower-cased) in the allow-list. -/
def eligibleB (e : DirEnt) : Bool :=
  e.isFile && e.name ≠ agent_filename
    && INCLUDE_EXTENSIONS.contains (pyLower (pySuffix e.name))

/-! ## Context Builder (agent.py lines 31-72) -/

/-- The data of a directory entry that `build_file_context_message` reads:
name, regular-file bit, and text content (the build never looks at `stat`). -/
def fileData (e : DirEnt) : String × Bool × Option String :=
  (e.name, e.isFile, e.content)

/-- The loop body of `build_file_context_message` for one directory entry:
`none` when the entry is skipped (not a regular file, the agent's own file,
extension not allowed, or `read_text` raised — the warning print is I/O),
otherwise the formatted block
`"File: {name}\n---\n" ++ content[:MAX_FILE_CHARS] ++ "\n"`. -/
def entryBlock : String × Bool × Option String → Option String
  | (name, isFile, content) =>
    if isFile && name ≠ agent_filename
        && INCLUDE_EXTENSIONS.contains (pyLower (pySuffix name)) then
      content.map (fun c =>
        "File: " ++ name ++ "\n---\n" ++ pySlice c MAX_FILE_CHARS ++ "\n")
    else
      none

/-- The fixed instruction text between the directory line and the file
blocks. -/
def CONTEXT_PREAMBLE : String :=
  "You have access to the following files from the project directory. " ++
  "Use them as context when answering. If the user asks about a file, " ++
  "prefer quoting the relevant snippet and explaining it.\n\n"

/-- `build_file_context_message(base_dir)`: collect the blocks of the
eligible, readable files of the sorted listing; `None` when there are no
blocks, otherwise the single tagged system message. -/
def build_file_context_message (base_dir : String) (listing : List DirEnt) :
    Option Entry :=
  let file_blocks := (sortByName listing).filterMap (fun p => entryBlock (fileData p))
  if file_blocks.isEmpty then
    none
  else
    some { role := "system"
         , content :=
             FILE_CONTEXT_TAG ++ "\n" ++
             "Project directory: " ++ base_dir ++ "\n" ++
             CONTEXT_PREAMBLE ++
             pyJoin "\n" file_blocks }

/-! ## Context Store operations (agent.py lines 75-94) -/

/-- The test of `reload_file_context`'s list comprehension: a system entry
whose content starts with `FILE_CONTEXT_TAG`. -/
def isTagged (e : Entry) : Bool :=
  e.role = "system" && pyStartswith e.content FILE_CONTEXT_TAG

/-- `add_initial_file_context()`: build the briefing; when it is not `None`,
insert it at index 0 of `context`. -/
def add_initial_file_context (base_dir : String) (listing : List DirEnt)
    (context : List Entry) : List Entry :=
  match build_file_context_message base_dir listing with
  | some msg => msg :: context
  | none => context

/-- `reload_file_context()`: drop every entry matching `isTagged`, then
re-run `add_initial_file_context`. -/
def reload_file_context (base_dir : String) (listing : List DirEnt)
    (context : List Entry) : List Entry :=
  add_initial_file_context base_dir listing
    (context.filter (fun m => !isTagged m))

/-! ## Directory Snapshot (agent.py lines 97-108) -/

/-- `directory_signature(base_dir)`: the `(name, st_mtime_ns, st_size)`
triples of the eligible files of the sorted listing; a file whose `stat`
raises is skipped (`except: pass`). -/
def directory_signature (listing : List DirEnt) : List (String × Int × Nat) :=
  (sortByName listing).filterMap (fun p =>
    if p.isFile && p.name ≠ agent_filename
        && INCLUDE_EXTENSIONS.contains (pyLower (pySuffix p.name)) then
      p.stat.map (fun st => (p.name, st.st_mtime_ns, st.st_size))
    else
      none)

/-! ## Turn Processor (agent.py lines 115-128) -/

deriving instance DecidableEq for Except

/-- Result of one `process` call: the returned output or the propagated
exception of the external call, the globals afterwards, and how many times
`reload_file_context` ran (instrumentation for the staleness-gating
property). -/
structure TurnResult where
  result : Except String String
  state : AgentState
  rebuilds : Nat
deriving DecidableEq, Repr

/-- The staleness check opening `process`: compare the fresh signature with
`_last_sig`; on mismatch reload and record the fresh signature. Returns the
new globals and the number of rebuilds performed (0 or 1). -/
def check_and_reload (base_dir : String) (listing : List DirEnt)
    (s : AgentState) : AgentState × Nat :=
  let sig := directory_signature listing
  if some sig ≠ s.lastSig then
    (⟨reload_file_context base_dir listing s.context, some sig⟩, 1)
  else
    (s, 0)

/-- `process(prompt)`: staleness check, append the user entry, issue the
external call (`callResult` models `call()`); on success append the
assistant entry and return the output, on failure the exception propagates
with the user entry already appended. -/
def process (base_dir : String) (listing : List DirEnt) (prompt : String)
    (callResult : Except String String) (s : AgentState) : TurnResult :=
  let s1 := (check_and_reload base_dir listing s).1
  let n := (check_and_reload base_dir listing s).2
  let ctx := s1.context ++ [⟨"user", prompt⟩]
  match callResult with
  | .error e => ⟨.error e, ⟨ctx, s1.lastSig⟩, n⟩
  | .ok output => ⟨.ok output, ⟨ctx ++ [⟨"assistant", output⟩], s1.lastSig⟩, n⟩

/-! ## Front End (agent.py lines 131-164) -/

/-- The `/reload` branch of the REPL (agent.py lines 154-156): it calls
`reload_file_context()` and nothing else — in particular it does not touch
`_last_sig`. -/
def repl_reload (base_dir : String) (listing : List DirEnt)
    (s : AgentState) : AgentState :=
  ⟨reload_file_context base_dir listing s.context, s.lastSig⟩

/-- The globals after `main`'s opening `add_initial_file_context()` call:
`context` holds the initial briefing (when any), `_last_sig` is `None`. -/
def initial_state (base_dir : String) (listing : List DirEnt) : AgentState :=
  ⟨add_initial_file_context base_dir listing [], none⟩

/-- One observable operation of the running agent: an explicit `/reload`,
or a processed turn; each carries the directory listing at that moment (and
for a turn the prompt and the external call's outcome). -/
inductive Step where
  | reload (listing : List DirEnt)
  | turn (listing : List DirEnt) (prompt : String) (callResult : Except String String)
deriving Repr

/-- Apply one operation to the globals. -/
def stepRun (base_dir : String) (s : AgentState) : Step → AgentState
  | .reload l => repl_reload base_dir l s
  | .turn l p r => (process base_dir l p r s).state

/-- The globals after the initial context build followed by a sequence of
operations. -/
def run (base_dir : String) (listing₀ : List DirEnt) (steps : List Step) :
    AgentState :=
  steps.foldl (stepRun base_dir) (initial_state base_dir listing₀)

/-- The untagged entries of the store, in order (user, assistant, and any
system entry not matching the tag test). -/
def untagged (context : List Entry) : List Entry :=
  context.filter (fun m => !isTagged m)

/-! ## Lemmas about the name ordering -/

theorem pyLeChars_total : ∀ as bs : List Char,
    pyLeChars as bs = true ∨ pyLeChars bs as = true
  | [], [] => Or.inl rfl
  | [], _ :: _ => Or.inl rfl
  | _ :: _, [] => Or.inr rfl
  | a :: as, b :: bs => by
    by_cases hab : a = b
    · subst hab
      simpa [pyLeChars] using pyLeChars_total as bs
    · rcases lt_trichotomy a b with h | h | h
      · exact Or.inl (by simp [pyLeChars, hab, h])
      · exact absurd h hab
      · exact Or.inr (by simp [pyLeChars, Ne.symm hab, h])

theorem pyLeChars_trans : ∀ as bs cs : List Char, pyLeChars as bs = true →
    pyLeChars bs cs = true → pyLeChars as cs = true
  | [], _, _, _, _ => rfl
  | _ :: _, [], _, h1, _ => by simp [pyLeChars] at h1
  | _ :: _, _ :: _, [], _, h2 => by simp [pyLeChars] at h2
  | a :: as, b :: bs, c :: cs, h1, h2 => by
    by_cases hab : a = b <;> by_cases hbc : b = c
    · subst hab; subst hbc
      simp only [pyLeChars, if_pos rfl] at h1 h2 ⊢
      exact pyLeChars_trans as bs cs h1 h2
    · subst hab
      simp only [pyLeChars, if_pos rfl, if_neg hbc] at h2 ⊢
      exact h2
    · subst hbc
      simp only [pyLeChars, if_pos rfl, if_neg hab] at h1 ⊢
      exact h1
    · simp only [pyLeChars, if_neg hab, if_neg hbc, decide_eq_true_eq] at h1 h2
      have hac : a < c := lt_trans h1 h2
      simp only [pyLeChars, if_neg (ne_of_lt hac), decide_eq_true_eq]
      exact hac

theorem pyLeChars_antisymm : ∀ as bs : List Char, pyLeChars as bs = true →
    pyLeChars bs as = true → as = bs
  | [], [], _, _ => rfl
  | [], _ :: _, _, h2 => by simp [pyLeChars] at h2
  | _ :: _, [], h1, _ => by simp [pyLeChars] at h1
  | a :: as, b :: bs, h1, h2 => by
    by_cases hab : a = b
    · subst hab
      simp only [pyLeChars, if_pos rfl] at h1 h2
      rw [pyLeChars_antisymm as bs h1 h2]
    · simp only [pyLeChars, if_neg hab, if_neg (Ne.symm hab), decide_eq_true_eq] at h1 h2
      exact absurd h2 (lt_asymm h1)

theorem pyStrLe_antisymm {s t : String} (h1 : pyStrLe s t = true)
    (h2 : pyStrLe t s = true) : s = t :=
  String.ext (pyLeChars_antisymm _ _ h1 h2)

instance : IsTotal DirEnt (fun a b => pyStrLe a.name b.name = true) :=
  ⟨fun a b => pyLeChars_total a.name.data b.name.data⟩

instance : IsTrans DirEnt (fun a b => pyStrLe a.name b.name = true) :=
  ⟨fun a b c => pyLeChars_trans a.name.data b.name.data c.name.data⟩

/-! ## Lemmas about `sortByName` -/

theorem sortByName_perm (l : List DirEnt) : (sortByName l).Perm l :=
  List.perm_insertionSort _ l

theorem sortByName_sorted (l : List DirEnt) :
    (sortByName l).Pairwise (fun a b => pyStrLe a.name b.name = true) :=
  List.sorted_insertionSort _ l

theorem mem_sortByName {e : DirEnt} {l : List DirEnt} :
    e ∈ sortByName l ↔ e ∈ l :=
  (sortByName_perm l).mem_iff

/-! ## Lemmas about the Context Builder -/

theorem entryBlock_eq_some {e : DirEnt} {c : String} (he : eligibleB e = true)
    (hc : e.content = some c) :
    entryBlock (fileData e) =
      some ("File: " ++ e.name ++ "\n---\n" ++ pySlice c MAX_FILE_CHARS ++ "\n") := by
  obtain ⟨n, f, co, st⟩ := e
  simp only [eligibleB, Bool.and_eq_true, decide_eq_true_eq] at he
  obtain ⟨⟨hf, hn⟩, hext⟩ := he
  have hext' : pyLower (pySuffix n) ∈ INCLUDE_EXTENSIONS := by simpa using hext
  simp only at hc
  simp [entryBlock, fileData, hf, hn, hext', hc]

theorem entryBlock_eq_none {e : DirEnt}
    (h : eligibleB e = true → e.content = none) :
    entryBlock (fileData e) = none := by
  obtain ⟨n, f, co, st⟩ := e
  by_cases he : eligibleB ⟨n, f, co, st⟩ = true
  · have hco := h he
    simp only [eligibleB, Bool.and_eq_true, decide_eq_true_eq] at he
    obtain ⟨⟨hf, hn⟩, hext⟩ := he
    simp only at hco
    simp [entryBlock, fileData, hf, hn, hext, hco]
  · simp only [entryBlock, fileData]
    split
    · rename_i hcond
      exact absurd (show eligibleB ⟨n, f, co, st⟩ = true from hcond) he
    · rfl

theorem build_eq (d : String) (l : List DirEnt) :
    build_file_context_message d l =
      if ((sortByName l).filterMap (fun p => entryBlock (fileData p))) = [] then
        none
      else
        some { role := "system"
             , content :=
                 FILE_CONTEXT_TAG ++ "\n" ++
                 "Project directory: " ++ d ++ "\n" ++
                 CONTEXT_PREAMBLE ++
                 pyJoin "\n" ((sortByName l).filterMap (fun p => entryBlock (fileData p))) } := by
  unfold build_file_context_message
  rcases h : (sortByName l).filterMap (fun p => entryBlock (fileData p)) with _ | ⟨b, bs⟩ <;>
    simp [h]

theorem build_isTagged {d : String} {l : List DirEnt} {m : Entry}
    (h : build_file_context_message d l = some m) : isTagged m = true := by
  rw [build_eq] at h
  split at h
  · exact absurd h (by simp)
  · injection h with h
    subst h
    show (decide ("system" = "system") && _) = true
    rw [decide_eq_true rfl, Bool.true_and]
    show decide _ = true
    rw [decide_eq_true_eq]
    refine ⟨("\n" ++ ("Project directory: " ++ d ++ "\n") ++ CONTEXT_PREAMBLE ++
      pyJoin "\n" ((sortByName l).filterMap (fun p => entryBlock (fileData p)))).data, ?_⟩
    simp [String.data_append]

/-! ## Lemmas about the Context Store -/

theorem isTagged_user (p : String) : isTagged ⟨"user", p⟩ = false := rfl

theorem isTagged_assistant (p : String) : isTagged ⟨"assistant", p⟩ = false := rfl

theorem isTagged_of_system_startswith {e : Entry} (hrole : e.role = "system")
    (hpre : pyStartswith e.content FILE_CONTEXT_TAG = true) : isTagged e = true := by
  simp only [isTagged, hrole, decide_eq_true rfl, Bool.true_and]
  exact hpre

/-- The positional invariant: every tagged entry sits at index 0 (there is
none beyond the head). -/
def taggedPinned (context : List Entry) : Prop :=
  (context.drop 1).all (fun e => !isTagged e) = true

theorem filter_untagged_all (ctx : List Entry) :
    (ctx.filter (fun m => !isTagged m)).all (fun e => !isTagged e) = true := by
  rw [List.all_eq_true]
  intro e he
  exact (List.mem_filter.mp he).2

theorem untagged_idem (ctx : List Entry) :
    untagged (ctx.filter (fun m => !isTagged m)) = ctx.filter (fun m => !isTagged m) := by
  unfold untagged
  rw [List.filter_eq_self]
  intro e he
  exact (List.mem_filter.mp he).2

theorem untagged_reload (d : String) (l : List DirEnt) (ctx : List Entry) :
    untagged (reload_file_context d l ctx) = untagged ctx := by
  unfold reload_file_context add_initial_file_context
  rcases hb : build_file_context_message d l with _ | m
  · exact untagged_idem ctx
  · have hm := build_isTagged hb
    show untagged (m :: ctx.filter (fun m => !isTagged m)) = untagged ctx
    unfold untagged
    rw [List.filter_cons_of_neg (by simp [hm])]
    exact untagged_idem ctx

theorem reload_pinned (d : String) (l : List DirEnt) (ctx : List Entry) :
    taggedPinned (reload_file_context d l ctx) := by
  unfold reload_file_context add_initial_file_context
  rcases hb : build_file_context_message d l with _ | m
  · unfold taggedPinned
    rw [List.all_eq_true]
    intro e he
    have := List.mem_of_mem_drop he
    exact (List.mem_filter.mp this).2
  · unfold taggedPinned
    show ((m :: ctx.filter (fun m => !isTagged m)).drop 1).all _ = true
    exact filter_untagged_all ctx

theorem pinned_append (ctx xs : List Entry) (h : taggedPinned ctx)
    (hxs : xs.all (fun e => !isTagged e) = true) : taggedPinned (ctx ++ xs) := by
  unfold taggedPinned at h ⊢
  rcases ctx with _ | ⟨e, t⟩
  · rw [List.all_eq_true] at hxs ⊢
    intro x hx
    exact hxs x (List.mem_of_mem_drop hx)
  · show ((t ++ xs).all fun e => !isTagged e) = true
    rw [List.all_append]
    have h' : (t.all fun e => !isTagged e) = true := h
    rw [h', hxs]
    rfl

theorem pinned_count_le (ctx : List Entry) (h : taggedPinned ctx) :
    (ctx.filter isTagged).length ≤ 1 := by
  rcases ctx with _ | ⟨e, t⟩
  · simp
  · unfold taggedPinned at h
    have ht : t.filter isTagged = [] := by
      rw [List.filter_eq_nil_iff]
      intro a ha
      have := (List.all_eq_true.mp h) a ha
      simp at this
      simp [this]
    rcases he : isTagged e with _ | _
    · rw [List.filter_cons_of_neg (by simp [he]), ht]
      simp
    · rw [List.filter_cons_of_pos (by simp [he]), ht]
      simp

/-! ## Lemmas about the Turn Processor -/

theorem process_rebuilds (d : String) (l : List DirEnt) (p : String)
    (r : Except String String) (s : AgentState) :
    (process d l p r s).rebuilds
      = if some (directory_signature l) = s.lastSig then 0 else 1 := by
  unfold process check_and_reload
  by_cases h : some (directory_signature l) = s.lastSig <;> cases r <;> simp [h]

theorem process_lastSig (d : String) (l : List DirEnt) (p : String)
    (r : Except String String) (s : AgentState) :
    (process d l p r s).state.lastSig = some (directory_signature l) := by
  unfold process check_and_reload
  by_cases h : some (directory_signature l) = s.lastSig <;> cases r <;> simp [h]

theorem process_context (d : String) (l : List DirEnt) (p : String)
    (r : Except String String) (s : AgentState) :
    (process d l p r s).state.context
      = (check_and_reload d l s).1.context ++ [⟨"user", p⟩]
          ++ (match r with
              | .error _ => []
              | .ok out => [⟨"assistant", out⟩]) := by
  unfold process
  cases r <;> simp

theorem untagged_check_and_reload (d : String) (l : List DirEnt)
    (s : AgentState) :
    untagged (check_and_reload d l s).1.context = untagged s.context := by
  unfold check_and_reload
  by_cases h : some (directory_signature l) ≠ s.lastSig
  · simp only [if_pos h]
    exact untagged_reload d l s.context
  · simp only [if_neg h]

theorem pinned_check_and_reload (d : String) (l : List DirEnt)
    (s : AgentState) (h : taggedPinned s.context) :
    taggedPinned (check_and_reload d l s).1.context := by
  unfold check_and_reload
  by_cases hc : some (directory_signature l) ≠ s.lastSig
  · simp only [if_pos hc]
    exact reload_pinned d l s.context
  · simp only [if_neg hc]
    exact h

theorem turnTail_untagged (r : Except String String) :
    ((match r with
      | .error _ => ([] : List Entry)
      | .ok out => [⟨"assistant", out⟩]).all (fun e => !isTagged e)) = true := by
  cases r <;> rfl

theorem stepRun_pinned (d : String) (s : AgentState) (st : Step)
    (h : taggedPinned s.context) : taggedPinned (stepRun d s st).context := by
  cases st with
  | reload l => exact reload_pinned d l s.context
  | turn l p r =>
    show taggedPinned (process d l p r s).state.context
    rw [process_context]
    exact pinned_append _ _
      (pinned_append _ _ (pinned_check_and_reload d l s h) rfl)
      (turnTail_untagged r)

theorem untagged_stepRun (d : String) (s : AgentState) (st : Step) :
    ∃ t, untagged (stepRun d s st).context = untagged s.context ++ t := by
  cases st with
  | reload l => exact ⟨[], by simp [stepRun, repl_reload, untagged_reload]⟩
  | turn l p r =>
    refine ⟨untagged ([⟨"user", p⟩] ++ (match r with
      | .error _ => ([] : List Entry)
      | .ok out => [⟨"assistant", out⟩])), ?_⟩
    show untagged (process d l p r s).state.context = _
    rw [process_context]
    unfold untagged
    rw [List.append_assoc, List.filter_append]
    rw [show (check_and_reload d l s).1.context.filter (fun m => !isTagged m)
          = untagged s.context from untagged_check_and_reload d l s]
    rfl

theorem run_pinned_aux (d : String) (steps : List Step) :
    ∀ s : AgentState, taggedPinned s.context →
      taggedPinned (steps.foldl (stepRun d) s).context := by
  induction steps with
  | nil => exact fun s h => h
  | cons st rest ih => exact fun s h => ih _ (stepRun_pinned d s st h)

theorem initial_pinned (d : String) (l0 : List DirEnt) :
    taggedPinned (initial_state d l0).context := by
  unfold initial_state add_initial_file_context
  rcases build_file_context_message d l0 with _ | m <;> rfl

theorem run_pinned (d : String) (l0 : List DirEnt) (steps : List Step) :
    taggedPinned (run d l0 steps).context :=
  run_pinned_aux d steps _ (initial_pinned d l0)

/-! ## Determinism of the Context Builder -/

theorem build_blocks_eq (l : List DirEnt) :
    (sortByName l).filterMap (fun p => entryBlock (fileData p))
      = ((sortByName l).map fileData).filterMap entryBlock := by
  rw [List.filterMap_map]
  rfl

theorem sorted_fileData_eq (l1 l2 : List DirEnt)
    (hperm : (l1.map fileData).Perm (l2.map fileData))
    (hnodup : (l1.map DirEnt.name).Nodup) :
    (sortByName l1).map fileData = (sortByName l2).map fileData := by
  haveI : IsAntisymm (String × Bool × Option String)
      (fun t u => pyStrLe t.1 u.1 = true ∧ t.1 ≠ u.1) :=
    ⟨fun a b h1 h2 => absurd (pyStrLe_antisymm h1.1 h2.1) h1.2⟩
  have hP : ((sortByName l1).map fileData).Perm ((sortByName l2).map fileData) :=
    (((sortByName_perm l1).map fileData).trans hperm).trans
      ((sortByName_perm l2).map fileData).symm
  have hpw1 : l1.Pairwise (fun a b => a.name ≠ b.name) :=
    List.pairwise_map.mp hnodup
  have htr1 : (l1.map fileData).Pairwise (fun t u => t.1 ≠ u.1) :=
    List.pairwise_map.mpr hpw1
  have htr2 : (l2.map fileData).Pairwise (fun t u => t.1 ≠ u.1) :=
    (hperm.pairwise_iff (fun h => Ne.symm h)).mp htr1
  have hs1 : ((sortByName l1).map fileData).Pairwise
      (fun t u => pyStrLe t.1 u.1 = true ∧ t.1 ≠ u.1) := by
    have hle : ((sortByName l1).map fileData).Pairwise
        (fun t u => pyStrLe t.1 u.1 = true) :=
      List.pairwise_map.mpr (sortByName_sorted l1)
    have hne : ((sortByName l1).map fileData).Pairwise (fun t u => t.1 ≠ u.1) :=
      (((sortByName_perm l1).map fileData).pairwise_iff (fun h => Ne.symm h)).mpr htr1
    exact hle.and hne
  have hs2 : ((sortByName l2).map fileData).Pairwise
      (fun t u => pyStrLe t.1 u.1 = true ∧ t.1 ≠ u.1) := by
    have hle : ((sortByName l2).map fileData).Pairwise
        (fun t u => pyStrLe t.1 u.1 = true) :=
      List.pairwise_map.mpr (sortByName_sorted l2)
    have hne : ((sortByName l2).map fileData).Pairwise (fun t u => t.1 ≠ u.1) :=
      (((sortByName_perm l2).map fileData).pairwise_iff (fun h => Ne.symm h)).mpr htr2
    exact hle.and hne
  exact List.eq_of_perm_of_sorted hP hs1 hs2

theorem build_congr (d : String) (l1 l2 : List DirEnt)
    (h : (sortByName l1).map fileData = (sortByName l2).map fileData) :
    build_file_context_message d l1 = build_file_context_message d l2 := by
  unfold build_file_context_message
  rw [build_blocks_eq l1, build_blocks_eq l2, h]

theorem build_content_startswith {d : String} {l : List DirEnt} {m : Entry}
    (h : build_file_context_message d l = some m) :
    pyStartswith m.content
      (FILE_CONTEXT_TAG ++ "\n" ++ "Project directory: " ++ d ++ "\n"
        ++ CONTEXT_PREAMBLE) = true := by
  rw [build_eq] at h
  split at h
  · exact absurd h (by simp)
  · injection h with h
    subst h
    show decide _ = true
    rw [decide_eq_true_eq]
    rw [String.data_append]
    exact ⟨_, rfl⟩

/-! ## Further helpers -/

theorem mem_pyJoin_parts (sep b : String) : ∀ l : List String, b ∈ l →
    ∃ pre post : List Char, (pyJoin sep l).data = pre ++ b.data ++ post
  | [], hb => absurd hb (List.not_mem_nil b)
  | [x], hb => by
    rcases List.mem_singleton.mp hb with rfl
    exact ⟨[], [], by simp [pyJoin]⟩
  | x :: y :: xs, hb => by
    rcases List.mem_cons.mp hb with rfl | hb'
    · refine ⟨[], (sep ++ pyJoin sep (y :: xs)).data, ?_⟩
      show (b ++ sep ++ pyJoin sep (y :: xs)).data = _
      simp [String.data_append, List.append_assoc]
    · obtain ⟨pre, post, hp⟩ := mem_pyJoin_parts sep b (y :: xs) hb'
      refine ⟨(x ++ sep).data ++ pre, post, ?_⟩
      show (x ++ sep ++ pyJoin sep (y :: xs)).data = _
      simp [String.data_append, hp, List.append_assoc]

theorem filter_tagged_filter_untagged (ctx : List Entry) :
    (ctx.filter (fun m => !isTagged m)).filter isTagged = [] := by
  rw [List.filter_filter, List.filter_eq_nil_iff]
  intro a _
  simp

/-! ## Concrete inputs used by the claim witnesses -/

/-- A one-file directory listing: `a.md` containing `hello`. -/
def listing₀ : List DirEnt :=
  [⟨"a.md", true, some "hello", some ⟨5, 5⟩⟩]

/-! ## The claims -/

/-- C1, counterexample: the claim says the REPL `/reload` handler also
updates `_last_sig` to the fresh Snapshot; at this concrete input it does
not — `_last_sig` is still `None` after the explicit reload. -/
theorem spec_C1_counterexample :
    ¬ ((repl_reload "/p" listing₀ ⟨[], none⟩).lastSig
        = some (directory_signature listing₀)) := by
  decide

/-- C1, amended: an explicit reload request (`/reload`) rebuilds the
briefing unconditionally via `reload_file_context`, but leaves `_last_sig`
untouched; consequently an immediately following processed turn still
compares the fresh signature against the old `_last_sig` and rebuilds
again unless that old value already equals the fresh signature. -/
theorem spec_C1_amended (d : String) (l : List DirEnt) (s : AgentState)
    (p : String) (r : Except String String) :
    (repl_reload d l s).context = reload_file_context d l s.context ∧
    (repl_reload d l s).lastSig = s.lastSig ∧
    (process d l p r (repl_reload d l s)).rebuilds
      = if some (directory_signature l) = s.lastSig then 0 else 1 := by
  refine ⟨rfl, rfl, ?_⟩
  rw [process_rebuilds]
  rfl

/-- C2: after the initial context build and any sequence of explicit
reloads and processed turns, the store holds at most one tagged
file-context entry; every tagged entry is at index 0; and one further
operation only extends the sequence of untagged entries (user, assistant,
untagged system) at the end, never reordering it. -/
theorem spec_C2 (d : String) (l0 : List DirEnt) (steps : List Step) :
    (((run d l0 steps).context.filter isTagged).length ≤ 1) ∧
    (((run d l0 steps).context.drop 1).all (fun e => !isTagged e) = true) ∧
    (∀ st : Step, ∃ t, untagged ((run d l0 (steps ++ [st])).context)
        = untagged ((run d l0 steps).context) ++ t) := by
  refine ⟨pinned_count_le _ (run_pinned d l0 steps), run_pinned d l0 steps, ?_⟩
  intro st
  have hr : run d l0 (steps ++ [st]) = stepRun d (run d l0 steps) st := by
    unfold run
    rw [List.foldl_append]
    rfl
  rw [hr]
  exact untagged_stepRun d (run d l0 steps) st

/-- C3: across two processed turns, if the directory signature is unchanged
the second turn performs no rebuild; if it changed, the second turn performs
exactly one rebuild; in both cases the second turn leaves `_last_sig` equal
to the fresh signature; and a turn started from the `None` sentinel (the
very first turn) always rebuilds. -/
theorem spec_C3 (d : String) (l1 l2 : List DirEnt) (p1 p2 : String)
    (r1 r2 : Except String String) (s : AgentState) :
    ((process d l2 p2 r2 (process d l1 p1 r1 s).state).rebuilds
        = if directory_signature l2 = directory_signature l1 then 0 else 1) ∧
    ((process d l2 p2 r2 (process d l1 p1 r1 s).state).state.lastSig
        = some (directory_signature l2)) ∧
    (s.lastSig = none → (process d l1 p1 r1 s).rebuilds = 1) := by
  refine ⟨?_, process_lastSig d l2 p2 r2 _, ?_⟩
  · rw [process_rebuilds, process_lastSig]
    by_cases h : directory_signature l2 = directory_signature l1 <;> simp [h]
  · intro h
    rw [process_rebuilds, h]
    simp

/-- C3 witness: on a concrete one-file directory, the first turn (sentinel
`None`) rebuilds, and a second turn over the unchanged directory does not. -/
theorem spec_C3_witness :
    (⟨[], none⟩ : AgentState).lastSig = none ∧
    (process "/p" listing₀ "q1" (Except.ok "a1") ⟨[], none⟩).rebuilds = 1 ∧
    (process "/p" listing₀ "q2" (Except.ok "a2")
        (process "/p" listing₀ "q1" (Except.ok "a1") ⟨[], none⟩).state).rebuilds
      = 0 := by
  have h := spec_C3 "/p" listing₀ listing₀ "q1" "q2"
    (Except.ok "a1") (Except.ok "a2") ⟨[], none⟩
  exact ⟨rfl, h.2.2 rfl, by simpa using h.1⟩

/-- C7: when the external call raises during a processed turn, the error is
the turn's result; the store holds exactly the pre-call context (after the
staleness check) with the user entry appended and no assistant entry —
indeed the successful turn's store is the failed one plus the assistant
entry; and `_last_sig` is as the staleness check left it. -/
theorem spec_C7 (d : String) (l : List DirEnt) (p err out : String)
    (s : AgentState) :
    (process d l p (Except.error err) s).result = Except.error err ∧
    (process d l p (Except.error err) s).state.context
      = (check_and_reload d l s).1.context ++ [⟨"user", p⟩] ∧
    (process d l p (Except.error err) s).state.lastSig
      = (check_and_reload d l s).1.lastSig ∧
    (process d l p (Except.ok out) s).state.context
      = (process d l p (Except.error err) s).state.context
          ++ [⟨"assistant", out⟩] := by
  refine ⟨rfl, ?_, rfl, ?_⟩
  · rw [process_context]
    simp
  · rw [process_context, process_context]
    simp

/-- C4: the Context Builder is deterministic — two listings of the same
directory content (the same multiset of name/regular-file/content data, in
any enumeration order and with any stat values) yield the same briefing,
and every briefing starts with the fixed tag-and-directory prefix; the
per-file format and sorted order are fixed by `build_eq` and
`entryBlock_eq_some`. -/
theorem spec_C4 (d : String) (l1 l2 : List DirEnt)
    (hperm : (l1.map fileData).Perm (l2.map fileData))
    (hnodup : (l1.map DirEnt.name).Nodup) :
    build_file_context_message d l1 = build_file_context_message d l2 ∧
    ∀ msg : Entry, build_file_context_message d l1 = some msg →
      pyStartswith msg.content
        (FILE_CONTEXT_TAG ++ "\n" ++ "Project directory: " ++ d ++ "\n"
          ++ CONTEXT_PREAMBLE) = true := by
  refine ⟨build_congr d l1 l2 (sorted_fileData_eq l1 l2 hperm hnodup), ?_⟩
  intro msg h
  exact build_content_startswith h

/-- Two enumerations of the same two-file directory, differing in listing
order and in stat data only. -/
def C4listingA : List DirEnt :=
  [⟨"b.md", true, some "B", some ⟨1, 1⟩⟩, ⟨"a.md", true, some "A", some ⟨2, 1⟩⟩]

def C4listingB : List DirEnt :=
  [⟨"a.md", true, some "A", some ⟨9, 7⟩⟩, ⟨"b.md", true, some "B", some ⟨8, 7⟩⟩]

/-- C4 witness at a concrete directory pair. -/
theorem spec_C4_witness :
    (C4listingA.map fileData).Perm (C4listingB.map fileData) ∧
    (C4listingA.map DirEnt.name).Nodup ∧
    build_file_context_message "/p" C4listingA
      = build_file_context_message "/p" C4listingB :=
  ⟨by decide, by decide,
    (spec_C4 "/p" C4listingA C4listingB (by decide) (by decide)).1⟩

/-- C5: an eligible readable file whose content exceeds `MAX_FILE_CHARS`
appears in the briefing (so the build returns a message, raising nothing),
its block holding exactly the first `MAX_FILE_CHARS` characters of the
content — a fixed-length prefix of it. -/
theorem spec_C5 (d : String) (l : List DirEnt) (e : DirEnt) (c : String)
    (hmem : e ∈ l) (helig : eligibleB e = true) (hc : e.content = some c)
    (hlen : MAX_FILE_CHARS < c.length) :
    (∃ msg : Entry, build_file_context_message d l = some msg ∧
      ∃ pre post : List Char,
        msg.content.data
          = pre ++ ("File: " ++ e.name ++ "\n---\n"
              ++ pySlice c MAX_FILE_CHARS ++ "\n").data ++ post) ∧
    (pySlice c MAX_FILE_CHARS).length = MAX_FILE_CHARS ∧
    (pySlice c MAX_FILE_CHARS).data <+: c.data := by
  refine ⟨?_, ?_, ⟨c.data.drop MAX_FILE_CHARS, List.take_append_drop _ _⟩⟩
  · have hbmem : ("File: " ++ e.name ++ "\n---\n"
        ++ pySlice c MAX_FILE_CHARS ++ "\n")
        ∈ (sortByName l).filterMap (fun p => entryBlock (fileData p)) :=
      List.mem_filterMap.mpr ⟨e, mem_sortByName.mpr hmem,
        entryBlock_eq_some helig hc⟩
    have hne : (sortByName l).filterMap (fun p => entryBlock (fileData p)) ≠ [] :=
      List.ne_nil_of_mem hbmem
    rw [build_eq, if_neg hne]
    refine ⟨_, rfl, ?_⟩
    obtain ⟨pre, post, hp⟩ := mem_pyJoin_parts "\n" _ _ hbmem
    refine ⟨(FILE_CONTEXT_TAG ++ "\n" ++ "Project directory: " ++ d ++ "\n"
        ++ CONTEXT_PREAMBLE).data ++ pre, post, ?_⟩
    show (_ ++ pyJoin "\n" _).data = _
    rw [String.data_append, hp]
    simp [List.append_assoc]
  · show (c.data.take MAX_FILE_CHARS).length = MAX_FILE_CHARS
    rw [List.length_take]
    have : MAX_FILE_CHARS < c.data.length := hlen
    omega

/-- A 8001-character file content. -/
def bigContent : String := ⟨List.replicate 8001 'a'⟩

def bigFile : DirEnt := ⟨"big.txt", true, some bigContent, some ⟨1, 8001⟩⟩

/-- C5 witness: a concrete 8001-character file in a one-file directory. -/
theorem spec_C5_witness :
    bigFile ∈ [bigFile] ∧ eligibleB bigFile = true ∧
    bigFile.content = some bigContent ∧ MAX_FILE_CHARS < bigContent.length ∧
    (pySlice bigContent MAX_FILE_CHARS).length = MAX_FILE_CHARS := by
  have hlen : MAX_FILE_CHARS < bigContent.length := by
    show MAX_FILE_CHARS < (List.replicate 8001 'a').length
    rw [List.length_replicate]
    decide
  exact ⟨List.mem_singleton.mpr rfl, by decide, rfl, hlen,
    (spec_C5 "/p" [bigFile] bigFile bigContent (List.mem_singleton.mpr rfl)
      (by decide) rfl hlen).2.1⟩

/-- C6: when no eligible file exists (or every eligible file fails to
read), the build returns `None`, and a reload in that situation leaves the
store with no tagged entry at all. -/
theorem spec_C6 (d : String) (l : List DirEnt) (ctx : List Entry)
    (h : ∀ e ∈ l, eligibleB e = true → e.content = none) :
    build_file_context_message d l = none ∧
    (reload_file_context d l ctx).filter isTagged = [] := by
  have hblocks : (sortByName l).filterMap (fun p => entryBlock (fileData p)) = [] := by
    rw [List.filterMap_eq_nil_iff]
    intro e he
    exact entryBlock_eq_none (h e (mem_sortByName.mp he))
  have hb : build_file_context_message d l = none := by
    rw [build_eq, if_pos hblocks]
  refine ⟨hb, ?_⟩
  unfold reload_file_context add_initial_file_context
  rw [hb]
  exact filter_tagged_filter_untagged ctx

/-- A directory whose only entries are the agent's own file and an eligible
file whose read raises. -/
def C6listing : List DirEnt :=
  [⟨"agent.py", true, some "code", some ⟨1, 4⟩⟩,
   ⟨"locked.md", true, none, some ⟨2, 9⟩⟩]

/-- C6 witness: concrete listing with no readable eligible file, store with
one tagged entry and one user entry. -/
theorem spec_C6_witness :
    (∀ e ∈ C6listing, eligibleB e = true → e.content = none) ∧
    build_file_context_message "/p" C6listing = none ∧
    (reload_file_context "/p" C6listing
      [⟨"system", "__FILE_CONTEXT__\nold"⟩, ⟨"user", "hi"⟩]).filter isTagged
      = [] := by
  have h := spec_C6 "/p" C6listing
    [⟨"system", "__FILE_CONTEXT__\nold"⟩, ⟨"user", "hi"⟩] (by decide)
  exact ⟨by decide, h.1, h.2⟩

/-- The per-entry function of `directory_signature` yields `some t` exactly
for an eligible entry with a successful `stat` carrying `t`'s data. -/
theorem sig_entry_eq_some {e : DirEnt} {t : String × Int × Nat} :
    (if e.isFile && e.name ≠ agent_filename
        && INCLUDE_EXTENSIONS.contains (pyLower (pySuffix e.name)) then
       e.stat.map (fun st => (e.name, st.st_mtime_ns, st.st_size))
     else none) = some t
      ↔ eligibleB e = true ∧ e.stat = some ⟨t.2.1, t.2.2⟩ ∧ t.1 = e.name := by
  constructor
  · intro h
    split at h
    · rename_i hcond
      obtain ⟨st, hst, heq⟩ := Option.map_eq_some'.mp h
      obtain ⟨a, b⟩ := st
      refine ⟨hcond, ?_, ?_⟩
      · rw [hst, ← heq]
      · rw [← heq]
    · simp at h
  · rintro ⟨hel, hst, hn⟩
    split
    · rw [hst]
      obtain ⟨nm, mt, sz⟩ := t
      simp only at hst hn ⊢
      rw [hn]
      rfl
    · rename_i hcond
      exact absurd hel hcond

/-- C8: the Directory Snapshot holds exactly the `(name, mtime, size)`
triples of the listing's regular files with an allow-listed extension
(case-insensitively), the agent's own file excluded by exact name and any
entry whose `stat` raises silently skipped; and its names are sorted. -/
theorem spec_C8 (l : List DirEnt) :
    (∀ nm : String, ∀ mt : Int, ∀ sz : Nat,
      ((nm, mt, sz) ∈ directory_signature l ↔
        ∃ e ∈ l, e.name = nm ∧ eligibleB e = true ∧
          e.stat = some ⟨mt, sz⟩)) ∧
    ((directory_signature l).map (fun t => t.1)).Pairwise
      (fun a b => pyStrLe a b = true) := by
  constructor
  · intro nm mt sz
    constructor
    · intro hmem
      obtain ⟨e, he, hfe⟩ := List.mem_filterMap.mp hmem
      obtain ⟨hel, hst, hn⟩ := sig_entry_eq_some.mp hfe
      exact ⟨e, mem_sortByName.mp he, hn.symm, hel, hst⟩
    · rintro ⟨e, he, hn, hel, hst⟩
      exact List.mem_filterMap.mpr ⟨e, mem_sortByName.mpr he,
        sig_entry_eq_some.mpr ⟨hel, hst, hn.symm⟩⟩
  · have hs := sortByName_sorted l
    rw [List.pairwise_map]
    unfold directory_signature
    rw [List.pairwise_filterMap]
    refine hs.imp ?_
    intro a b hab
    intro x hx y hy
    have hxa : x.1 = a.name := (sig_entry_eq_some.mp hx).2.2
    have hyb : y.1 = b.name := (sig_entry_eq_some.mp hy).2.2
    rw [hxa, hyb]
    exact hab

/-- C9: with an unchanged filesystem, two explicit reloads insert the same
briefing entry both times (same role and content); after the second the
store's head is that single tagged entry and no tagged entry exists
anywhere else. -/
theorem spec_C9 (d : String) (l : List DirEnt) (ctx : List Entry)
    (msg : Entry) (h : build_file_context_message d l = some msg) :
    (reload_file_context d l ctx).head? = some msg ∧
    (reload_file_context d l (reload_file_context d l ctx)).head? = some msg ∧
    (reload_file_context d l (reload_file_context d l ctx)).filter isTagged
      = [msg] ∧
    ((reload_file_context d l (reload_file_context d l ctx)).drop 1).all
      (fun e => !isTagged e) = true := by
  have hm := build_isTagged h
  have h1 : reload_file_context d l ctx
      = msg :: ctx.filter (fun m => !isTagged m) := by
    unfold reload_file_context add_initial_file_context
    rw [h]
  have h2 : reload_file_context d l (reload_file_context d l ctx)
      = msg :: ctx.filter (fun m => !isTagged m) := by
    rw [h1]
    unfold reload_file_context add_initial_file_context
    rw [h]
    rw [List.filter_cons_of_neg (by simp [hm])]
    rw [List.filter_filter]
    simp
  refine ⟨by rw [h1]; rfl, by rw [h2]; rfl, ?_, ?_⟩
  · rw [h2, List.filter_cons_of_pos (by simp [hm]),
      filter_tagged_filter_untagged]
  · rw [h2]
    exact filter_untagged_all ctx

set_option maxRecDepth 8000 in
/-- C9 witness: the one-file directory `listing₀`, a store with one user
turn, and the concrete briefing entry. -/
theorem spec_C9_witness :
    build_file_context_message "/p" listing₀
      = some ⟨"system", FILE_CONTEXT_TAG ++ "\n" ++ "Project directory: /p\n"
          ++ CONTEXT_PREAMBLE ++ "File: a.md\n---\nhello\n"⟩ ∧
    (reload_file_context "/p" listing₀
      (reload_file_context "/p" listing₀ [⟨"user", "hi"⟩])).filter isTagged
      = [⟨"system", FILE_CONTEXT_TAG ++ "\n" ++ "Project directory: /p\n"
          ++ CONTEXT_PREAMBLE ++ "File: a.md\n---\nhello\n"⟩] :=
  ⟨by decide,
    (spec_C9 "/p" listing₀ [⟨"user", "hi"⟩] _ (by decide)).2.2.1⟩

/-- C10: the reload path identifies the entry to drop purely by the test
"role is system and content starts with `__FILE_CONTEXT__`", so any such
entry — also one this subsystem never produced, as long as it differs from
the freshly built briefing — is gone from the store after a reload. -/
theorem spec_C10 (d : String) (l : List DirEnt) (ctx : List Entry)
    (e : Entry) (hrole : e.role = "system")
    (hpre : pyStartswith e.content FILE_CONTEXT_TAG = true)
    (hne : build_file_context_message d l ≠ some e) :
    e ∉ reload_file_context d l ctx := by
  have htag := isTagged_of_system_startswith hrole hpre
  intro hmem
  unfold reload_file_context add_initial_file_context at hmem
  rcases hb : build_file_context_message d l with _ | m
  · rw [hb] at hmem
    exact absurd (List.mem_filter.mp hmem).2 (by simp [htag])
  · rw [hb] at hmem
    rcases List.mem_cons.mp hmem with rfl | hmem'
    · exact hne hb
    · exact absurd (List.mem_filter.mp hmem').2 (by simp [htag])

/-- C10 witness: an operator-written system note that merely begins with
the marker text is removed by a reload over an empty directory. -/
theorem spec_C10_witness :
    (⟨"system", "__FILE_CONTEXT__ operator note"⟩ : Entry).role = "system" ∧
    pyStartswith (⟨"system", "__FILE_CONTEXT__ operator note"⟩ : Entry).content
      FILE_CONTEXT_TAG = true ∧
    (⟨"system", "__FILE_CONTEXT__ operator note"⟩ : Entry)
      ∉ reload_file_context "/p" []
          [⟨"system", "__FILE_CONTEXT__ operator note"⟩, ⟨"user", "hi"⟩] :=
  ⟨rfl, by decide,
    spec_C10 "/p" [] [⟨"system", "__FILE_CONTEXT__ operator note"⟩,
      ⟨"user", "hi"⟩] ⟨"system", "__FILE_CONTEXT__ operator note"⟩
      rfl (by decide) (by decide)⟩
